import Mathlib

/-!
Verification of the time-guess tracker (src/app.py) against its design
specification.  The Python source is shallowly embedded: strings are
modelled as lists of characters where parsing matters, the JSON store is
a structure of lists, and the Streamlit UI paths that gate mutations are
modelled as explicit operations returning an error type.
-/

namespace TimeGuess

/-- Error taxonomy of the specification (section 7). -/
inductive Err where
  | InvalidTimeFormatError
  | DeadlinePassedError
  | DuplicateActualTimeError
  | RoundIncompleteError
deriving DecidableEq

/-- Roster of participants, FRIENDS in src/app.py line 12. -/
def FRIENDS : List String := ["Honor", "Dawn", "Pilgrim"]

/-- A guess record, one element of the guesses list in the JSON store. -/
structure Guess where
  date : String
  name : String
  guess_time : String
deriving DecidableEq

/-- An actual-time record, one element of the actual_times list. -/
structure ActualTime where
  date : String
  actual_time : String
deriving DecidableEq

/-- The persisted store (section 6 layout): flat lists of guesses and
actual times plus the baseline score map.  The score map is modelled as a
total function; the Python dict is only ever read at roster names, which
the data model guarantees are present. -/
structure Data where
  guesses : List Guess
  actual_times : List ActualTime
  initial_scores : String → Nat

/-- Value of a decimal digit character, none for a non-digit. -/
def digitVal? (c : Char) : Option Nat :=
  if '0' ≤ c ∧ c ≤ '9' then some (c.toNat - '0'.toNat) else none

/-- Accumulate decimal digits left to right; fails on a non-digit. -/
def parseNatAux : List Char → Nat → Option Nat
  | [], acc => some acc
  | c :: cs, acc =>
    match digitVal? c with
    | some d => parseNatAux cs (acc * 10 + d)
    | none => none

/-- Python int() applied to a string: an optional sign followed by a
nonempty run of decimal digits.  (int() additionally tolerates
surrounding whitespace and digit-group underscores; no input in this
development uses them and they are not modelled.) -/
def pyInt? : List Char → Option Int
  | [] => none
  | '-' :: rest =>
    match rest with
    | [] => none
    | _ => (parseNatAux rest 0).map (fun n => -(n : Int))
  | '+' :: rest =>
    match rest with
    | [] => none
    | _ => (parseNatAux rest 0).map (fun n => (n : Int))
  | c :: cs =>
    match digitVal? c with
    | some d => (parseNatAux cs d).map (fun n => (n : Int))
    | none => none

/-- Python str.split applied with separator a single colon: splits on
every occurrence, keeping empty pieces, and yields one piece for a
colon-free string. -/
def splitOnColon : List Char → List (List Char)
  | [] => [[]]
  | c :: cs =>
    match splitOnColon cs with
    | [] => [[c]]
    | p :: ps => if c = ':' then [] :: p :: ps else (c :: p) :: ps

/-- time_to_minutes (src/app.py lines 85 to 91) on the character list of
the input: split on the colon, convert every piece with int(), unpack
exactly two values, return hours times 60 plus minutes; any failure is
swallowed by the bare except clause and yields 0. -/
def time_to_minutes_core (cs : List Char) : Int :=
  match (splitOnColon cs).mapM pyInt? with
  | some [h, m] => h * 60 + m
  | _ => 0

/-- time_to_minutes (src/app.py lines 85 to 91). -/
def time_to_minutes (s : String) : Int :=
  time_to_minutes_core s.data

/-- Modelled from the spec: time_to_scalar (section 4.3), the scoring
normalization the source lacks as a failing function.  It parses an
HH:MM string into minutes since midnight, 0 to 1439, and fails with
InvalidTimeFormatError on a wrong separator count, a non-numeric piece,
or hours outside 0 to 23 or minutes outside 0 to 59. -/
def time_to_scalar (s : String) : Except Err Nat :=
  match splitOnColon s.data with
  | [hcs, mcs] =>
    match parseNatAux hcs 0, parseNatAux mcs 0 with
    | some h, some m =>
      if hcs ≠ [] ∧ mcs ≠ [] ∧ h ≤ 23 ∧ m ≤ 59 then .ok (h * 60 + m)
      else .error .InvalidTimeFormatError
    | _, _ => .error .InvalidTimeFormatError
  | _ => .error .InvalidTimeFormatError

/-- Decimal digit character for a value below ten. -/
def digChar (n : Nat) : Char :=
  match n with
  | 0 => '0' | 1 => '1' | 2 => '2' | 3 => '3' | 4 => '4'
  | 5 => '5' | 6 => '6' | 7 => '7' | 8 => '8' | _ => '9'

/-- Canonical two-digit zero-padded rendering of a value below 100. -/
def twoDigits (n : Nat) : List Char :=
  [digChar (n / 10), digChar (n % 10)]

/-- Canonical well-formed HH:MM string for an hour and minute pair. -/
def fmtHM (h m : Nat) : String :=
  ⟨twoDigits h ++ ':' :: twoDigits m⟩

/-- get_today_guesses (src/app.py lines 74 to 77), with the current date
passed explicitly instead of read from the system clock. -/
def get_today_guesses (data : Data) (today : String) : List Guess :=
  data.guesses.filter (fun g => g.date == today)

/-- get_today_actual_time (src/app.py lines 79 to 83): first actual-time
record for the date, none when the filtered list is empty. -/
def get_today_actual_time (data : Data) (today : String) : Option ActualTime :=
  match data.actual_times.filter (fun e => e.date == today) with
  | [] => none
  | e :: _ => some e

/-- get_user_guess (src/app.py lines 122 to 127): first guess matching
the date and participant name. -/
def get_user_guess (data : Data) (friend today : String) : Option Guess :=
  data.guesses.find? (fun g => g.date == today && g.name == friend)

/-- update_user_guess (src/app.py lines 129 to 139): drop any guess for
the pair, then append the new one. -/
def update_user_guess (data : Data) (friend today new_guess : String) : Data :=
  { data with guesses :=
      (data.guesses.filter (fun g => !(g.date == today && g.name == friend)))
        ++ [⟨today, friend, new_guess⟩] }

/-- reset_today_data (src/app.py lines 183 to 194), with the current
date passed explicitly: remove the guesses and the actual time of that
date, keep everything else. -/
def reset_today_data (data : Data) (today : String) : Data :=
  { data with
    guesses := data.guesses.filter (fun g => g.date != today),
    actual_times := data.actual_times.filter (fun e => e.date != today) }

/-- is_guess_deadline_passed (src/app.py lines 98 to 103), with the
Eastern-time clock passed explicitly as minutes since midnight: the
source compares now_eastern with the same moment whose time of day is
replaced by 12:00, which at any sub-minute precision holds exactly when
the minutes-since-midnight value reaches 720. -/
def is_guess_deadline_passed (nowMinutes : Nat) : Bool :=
  720 ≤ nowMinutes

/-- Guesses of a date, the date_guesses list of calculate_leaderboard
(src/app.py lines 152 and 164). -/
def dateGuesses (data : Data) (d : String) : List Guess :=
  data.guesses.filter (fun g => g.date == d)

/-- Distinct guesser names of a date in first-occurrence order: the
guessed_friends set of src/app.py line 155, and also the key order of
the differences dict of lines 167 to 171. -/
def guessedNames (data : Data) (d : String) : List String :=
  ((dateGuesses data d).map Guess.name).dedup

/-- Completeness test of src/app.py line 156: the set of guesser names
has the size of the roster and contains every roster member. -/
def isCompleteDate (data : Data) (d : String) : Bool :=
  (guessedNames data d).length == FRIENDS.length &&
    FRIENDS.all (fun f => (guessedNames data d).contains f)

/-- dates_with_complete_data (src/app.py lines 147 to 157).  The source
collects the passing dates of actual_times into a set and iterates it in
unspecified order; the resulting tallies are order-independent, and the
set is modelled as the deduplicated list in first-occurrence order. -/
def dates_with_complete_data (data : Data) : List String :=
  ((data.actual_times.map ActualTime.date).filter
      (fun d => isCompleteDate data d)).dedup

/-- First actual-time record of a date, the next expression of
src/app.py line 161. -/
def first_actual_entry (data : Data) (d : String) : Option ActualTime :=
  data.actual_times.find? (fun e => e.date == d)

/-- Scalar value of the date's actual time (src/app.py line 162); the
none branch is never reached on the dates the leaderboard visits, which
all come from actual_times. -/
def actual_minutes (data : Data) (d : String) : Int :=
  match first_actual_entry data d with
  | some e => time_to_minutes e.actual_time
  | none => 0

/-- Final value of the differences dict of src/app.py lines 167 to 171
at a guesser name: the dict is written once per guess in list order, so
the surviving value comes from the last guess with that name. -/
def diffVal (data : Data) (d n : String) : Nat :=
  match ((dateGuesses data d).filter (fun g => g.name == n)).getLast? with
  | some g => (actual_minutes data d - time_to_minutes g.guess_time).natAbs
  | none => 0

/-- Winner computation of src/app.py lines 173 to 176: the guesser names
whose difference attains the minimum, in dict key order; empty when
there are no differences. -/
def round_winners (data : Data) (d : String) : List String :=
  match ((guessedNames data d).map (fun n => diffVal data d n)).min? with
  | some m => (guessedNames data d).filter (fun n => diffVal data d n == m)
  | none => []

/-- calculate_leaderboard (src/app.py lines 141 to 181): start from a
copy of initial_scores and add one win per complete date to each of that
date's winners. -/
def calculate_leaderboard (data : Data) : String → Nat :=
  (dates_with_complete_data data).foldl
    (fun w d => fun n => if n ∈ round_winners data d then w n + 1 else w n)
    data.initial_scores

/-- Validity of a time string under the HH:MM parse of
datetime.strptime used by main (src/app.py lines 257 and 300): a one- or
two-digit hour at most 23, a colon, a one- or two-digit minute at most
59, nothing else.  grabNum2 consumes greedily up to two digits. -/
def grabNum2 : List Char → Option (Nat × List Char)
  | [] => none
  | c :: cs =>
    match digitVal? c with
    | none => none
    | some d =>
      match cs with
      | [] => some (d, [])
      | c2 :: cs2 =>
        match digitVal? c2 with
        | some d2 => some (10 * d + d2, cs2)
        | none => some (d, cs)

/-- Validity of a time string under strptime with format HH:MM, see
grabNum2. -/
def validTime (s : String) : Bool :=
  match grabNum2 s.data with
  | some (h, ':' :: rest) =>
    match grabNum2 rest with
    | some (m, []) => h ≤ 23 && m ≤ 59
    | _ => false
  | _ => false

/-- Every roster participant has a guess for the date. -/
def all_roster_guessed (data : Data) (d : String) : Bool :=
  FRIENDS.all (fun f => data.guesses.any (fun g => g.date == d && g.name == f))

/-- Modelled from the spec: submit_or_update_guess of the Round
Controller (section 4.4), which the source inlines into main
(src/app.py lines 228 to 264) as UI gating rather than a named failing
operation.  Per the spec it fails with DeadlinePassedError when the
deadline has passed, fails with InvalidTimeFormatError when
time_to_scalar rejects the string, and otherwise upserts the guess for
the date; an error leaves the store untouched. -/
def submit_or_update_guess (deadline_passed : Bool) (data : Data)
    (participant today time_str : String) : Except Err Data :=
  if deadline_passed then .error .DeadlinePassedError
  else
    match time_to_scalar time_str with
    | .error _ => .error .InvalidTimeFormatError
    | .ok _ => .ok (update_user_guess data participant today time_str)

/-- Modelled from the spec: submit_actual_time of the Round Controller
with the store's set_actual_time (sections 4.2 and 4.4), which the
source inlines into main (src/app.py lines 286 to 309) as UI gating.
Per the spec it fails with RoundIncompleteError unless every roster
participant has guessed, fails with DuplicateActualTimeError when an
actual time already exists for the date, fails with
InvalidTimeFormatError on a bad format, and otherwise inserts; an error
leaves the store untouched.  The checks follow the order of the source
flow: the form is rendered only when the round has every guess and no
actual time yet (line 286), and the format is validated on submission
(line 300). -/
def set_actual_time (data : Data) (d time_str : String) : Except Err Data :=
  if ¬ all_roster_guessed data d then .error .RoundIncompleteError
  else if (get_today_actual_time data d).isSome then
    .error .DuplicateActualTimeError
  else
    match time_to_scalar time_str with
    | .error _ => .error .InvalidTimeFormatError
    | .ok _ => .ok { data with actual_times := data.actual_times ++ [⟨d, time_str⟩] }

/-- Well-formed store: at most one guess per date and participant pair,
at most one actual time per date, and every guess from a roster member.
These are the store invariants of spec section 3 that the mutation
operations maintain. -/
def WellFormed (data : Data) : Prop :=
  (data.guesses.map (fun g => (g.date, g.name))).Nodup ∧
    (data.actual_times.map ActualTime.date).Nodup ∧
    ∀ g ∈ data.guesses, g.name ∈ FRIENDS

instance (data : Data) : Decidable (WellFormed data) := by
  unfold WellFormed; infer_instance

/-- Spec-side reading of round completeness (section 3): every roster
participant has a guess for the date and an actual time exists. -/
def round_complete_spec (data : Data) (d : String) : Prop :=
  (∀ f ∈ FRIENDS, ∃ g ∈ data.guesses, g.date = d ∧ g.name = f) ∧
    ∃ e ∈ data.actual_times, e.date = d

instance (data : Data) (d : String) : Decidable (round_complete_spec data d) := by
  unfold round_complete_spec; infer_instance

/-- Spec-side difference of a participant in a round: the absolute gap
between the round's actual time and the participant's guess, both as
scalars; 0 when either record is absent (unused in that case). -/
def spec_diff (data : Data) (d n : String) : Nat :=
  match data.guesses.find? (fun g => g.date == d && g.name == n),
      first_actual_entry data d with
  | some g, some e =>
    (time_to_minutes e.actual_time - time_to_minutes g.guess_time).natAbs
  | _, _ => 0

/-- Spec-side winner of a round (section 4.3): a roster participant
whose difference is at most every roster participant's difference. -/
def spec_winner (data : Data) (d n : String) : Prop :=
  n ∈ FRIENDS ∧ ∀ f ∈ FRIENDS, spec_diff data d n ≤ spec_diff data d f

instance (data : Data) (d n : String) : Decidable (spec_winner data d n) := by
  unfold spec_winner; infer_instance

/-- Spec-side leaderboard count target of a participant: one increment
per distinct complete round date the participant wins. -/
def spec_win_count (data : Data) (n : String) : Nat :=
  (((data.actual_times.map ActualTime.date).dedup).filter
      (fun d => decide (round_complete_spec data d))).countP
    (fun d => decide (spec_winner data d n))

/-- Seeded default store of load_data (src/app.py lines 16 to 36). -/
def default_data : Data where
  guesses :=
    [⟨"2025-07-31", "Honor", "16:10"⟩, ⟨"2025-07-31", "Pilgrim", "16:20"⟩,
     ⟨"2025-07-31", "Dawn", "16:30"⟩, ⟨"2025-08-02", "Pilgrim", "14:30"⟩,
     ⟨"2025-08-02", "Honor", "15:00"⟩, ⟨"2025-08-02", "Dawn", "13:00"⟩]
  actual_times :=
    [⟨"2025-07-31", "16:10"⟩, ⟨"2025-08-02", "14:23"⟩]
  initial_scores := fun _ => 0

/-- Tie scenario store of spec section 8, instantiated on the roster:
guesses 09:00, 09:10 and 08:50 for one date with actual time 09:05. -/
def tie_scenario : Data where
  guesses :=
    [⟨"2025-08-09", "Honor", "09:00"⟩, ⟨"2025-08-09", "Dawn", "09:10"⟩,
     ⟨"2025-08-09", "Pilgrim", "08:50"⟩]
  actual_times := [⟨"2025-08-09", "09:05"⟩]
  initial_scores := fun _ => 0

/-- Store of the tie scenario before its actual time is recorded. -/
def awaiting_actual : Data := { tie_scenario with actual_times := [] }

/-! Generic list helper lemmas. -/

theorem find?_eq_filter_head? {α : Type} (p : α → Bool) :
    ∀ l : List α, l.find? p = (l.filter p).head?
  | [] => rfl
  | a :: l => by
    by_cases h : p a = true
    · rw [List.find?_cons_of_pos _ h, List.filter_cons_of_pos h]
      rfl
    · rw [List.find?_cons_of_neg _ h, List.filter_cons_of_neg h]
      exact find?_eq_filter_head? p l

theorem getLast?_eq_head?_of_short {α : Type} :
    ∀ l : List α, l.length ≤ 1 → l.getLast? = l.head?
  | [], _ => rfl
  | [_], _ => rfl
  | _ :: _ :: _, h => absurd h (by simp only [List.length_cons]; omega)

theorem filter_of_other_date {α : Type} (dt : α → String) (d d' : String)
    (h : d' ≠ d) (l : List α) :
    ((l.filter (fun a => dt a != d)).filter (fun a => dt a == d'))
      = l.filter (fun a => dt a == d') := by
  rw [List.filter_filter]
  apply List.filter_congr
  intro a _
  by_cases hd : dt a = d'
  · simp [hd, h]
  · simp [hd]

/-! Claims about time parsing. -/

/-- Claim C1: the specification demands that the time-to-scalar
conversion fail with InvalidTimeFormatError on any string that is not a
well-formed HH:MM time and never silently return 0; the source's
time_to_minutes instead swallows every failure and returns 0 for
"ab:cd" and "1730", and happily returns 1500 for the out-of-range
"25:00", while the spec-modelled time_to_scalar rejects all three. -/
theorem claim_C1_time_to_minutes_silently_defaults :
    time_to_minutes "ab:cd" = 0 ∧ time_to_minutes "1730" = 0 ∧
      time_to_minutes "25:00" = 1500 ∧
      time_to_scalar "ab:cd" = .error .InvalidTimeFormatError ∧
      time_to_scalar "1730" = .error .InvalidTimeFormatError ∧
      time_to_scalar "25:00" = .error .InvalidTimeFormatError :=
  ⟨rfl, rfl, rfl, rfl, rfl, rfl⟩

/-- Claim C8: on every well-formed HH:MM string with hours 0 to 23 and
minutes 0 to 59, time_to_minutes returns hours times 60 plus minutes,
a value between 0 and 1439. -/
theorem claim_C8_time_to_minutes_wellformed (h m : Nat)
    (hh : h ≤ 23) (hm : m ≤ 59) :
    time_to_minutes (fmtHM h m) = (h : Int) * 60 + (m : Int)
      ∧ h * 60 + m ≤ 1439 := by
  have key : ∀ a : Fin 24, ∀ b : Fin 60,
      time_to_minutes (fmtHM a.val b.val) = (a.val : Int) * 60 + (b.val : Int) := by
    decide
  exact ⟨key ⟨h, by omega⟩ ⟨m, by omega⟩, by omega⟩

/-- Witness for claim C8 at hour 17 and minute 30. -/
theorem claim_C8_witness :
    17 ≤ 23 ∧ 30 ≤ 59 ∧
      (time_to_minutes (fmtHM 17 30) = ((17 : Nat) : Int) * 60 + ((30 : Nat) : Int)
        ∧ 17 * 60 + 30 ≤ 1439) :=
  ⟨by omega, by omega, claim_C8_time_to_minutes_wellformed 17 30 (by omega) (by omega)⟩

/-! Claims about mutation operations. -/

/-- Claim C5: once the 12:00 Eastern deadline has passed,
submit_or_update_guess fails with DeadlinePassedError; no store is
produced, so no guess is inserted or replaced. -/
theorem claim_C5_deadline_blocks_submission (now : Nat) (data : Data)
    (participant today time_str : String)
    (h : is_guess_deadline_passed now = true) :
    submit_or_update_guess (is_guess_deadline_passed now) data participant today time_str
      = .error .DeadlinePassedError := by
  simp [submit_or_update_guess, h]

/-- Witness for claim C5 at clock value 750 minutes, that is 12:30. -/
theorem claim_C5_witness :
    is_guess_deadline_passed 750 = true ∧
      submit_or_update_guess (is_guess_deadline_passed 750) default_data "Honor"
        "2025-08-09" "10:00" = .error .DeadlinePassedError :=
  ⟨by decide,
    claim_C5_deadline_blocks_submission 750 default_data "Honor" "2025-08-09" "10:00"
      (by decide)⟩

/-- Claim C6: submitting twice for the same date and participant pair
leaves exactly one guess record for the pair, holding the second value;
more generally a single submission always leaves exactly one record for
its pair, so an upsert never appends a duplicate. -/
theorem claim_C6_upsert_single_record (data : Data) (f d t1 t2 : String) :
    ((update_user_guess (update_user_guess data f d t1) f d t2).guesses.filter
        (fun g => g.date == d && g.name == f)) = [⟨d, f, t2⟩] ∧
      ∀ (data' : Data) (t : String),
        ((update_user_guess data' f d t).guesses.filter
          (fun g => g.date == d && g.name == f)) = [⟨d, f, t⟩] := by
  have base : ∀ (data' : Data) (t : String),
      ((update_user_guess data' f d t).guesses.filter
        (fun g => g.date == d && g.name == f)) = [⟨d, f, t⟩] := by
    intro data' t
    unfold update_user_guess
    rw [List.filter_append, List.filter_filter]
    simp
  exact ⟨base _ _, base⟩

/-- Claim C7: resetting a date twice gives the same store as resetting
it once, and after a reset the round of that date has no guesses and no
actual time. -/
theorem claim_C7_reset_idempotent_and_clears (data : Data) (d : String) :
    reset_today_data (reset_today_data data d) d = reset_today_data data d ∧
      get_today_guesses (reset_today_data data d) d = [] ∧
      get_today_actual_time (reset_today_data data d) d = none := by
  refine ⟨?_, ?_, ?_⟩
  · cases data with
    | mk gs as sc => simp [reset_today_data, List.filter_filter]
  · simp [get_today_guesses, reset_today_data, List.filter_filter]
  · have hnil : (reset_today_data data d).actual_times.filter (fun e => e.date == d)
        = [] := by
      simp [reset_today_data, List.filter_filter]
    unfold get_today_actual_time
    rw [hnil]

/-- Claim C9: a reset removes only the records of its target date; the
guesses and the actual time of every other date, and the baseline score
map, are unchanged. -/
theorem claim_C9_reset_frame (data : Data) (d d' : String) (h : d' ≠ d) :
    get_today_guesses (reset_today_data data d) d' = get_today_guesses data d' ∧
      get_today_actual_time (reset_today_data data d) d' = get_today_actual_time data d' ∧
      (reset_today_data data d).initial_scores = data.initial_scores := by
  refine ⟨?_, ?_, rfl⟩
  · unfold get_today_guesses reset_today_data
    exact filter_of_other_date (fun g => g.date) d d' h data.guesses
  · unfold get_today_actual_time reset_today_data
    rw [filter_of_other_date (fun e => e.date) d d' h data.actual_times]

/-- Witness for claim C9 on the seeded store, resetting one historical
date and reading the other. -/
theorem claim_C9_witness :
    ("2025-07-31" : String) ≠ "2025-08-02" ∧
      (get_today_guesses (reset_today_data default_data "2025-08-02") "2025-07-31"
          = get_today_guesses default_data "2025-07-31" ∧
        get_today_actual_time (reset_today_data default_data "2025-08-02") "2025-07-31"
          = get_today_actual_time default_data "2025-07-31" ∧
        (reset_today_data default_data "2025-08-02").initial_scores
          = default_data.initial_scores) :=
  ⟨by decide, claim_C9_reset_frame default_data "2025-08-02" "2025-07-31" (by decide)⟩

/-- Claim C4: after an actual time has been recorded for a date, a
second attempt to set one fails with DuplicateActualTimeError and the
stored actual time remains the first recorded value. -/
theorem claim_C4_duplicate_actual_rejected (data : Data) (d t1 t2 : String)
    (data1 : Data) (h : set_actual_time data d t1 = .ok data1) :
    set_actual_time data1 d t2 = .error .DuplicateActualTimeError ∧
      get_today_actual_time data1 d = some ⟨d, t1⟩ := by
  unfold set_actual_time at h
  by_cases hr : all_roster_guessed data d
  · by_cases hs : (get_today_actual_time data d).isSome
    · simp [hr, hs] at h
    · simp [hr, hs] at h
      cases hts : time_to_scalar t1 with
      | error e => rw [hts] at h; simp at h
      | ok v =>
        rw [hts] at h
        simp at h
        subst h
        have hnil : data.actual_times.filter (fun e => e.date == d) = [] := by
          unfold get_today_actual_time at hs
          cases hf : data.actual_times.filter (fun e => e.date == d) with
          | nil => rfl
          | cons a t => rw [hf] at hs; simp at hs
        have hget : get_today_actual_time
            { data with actual_times := data.actual_times ++ [⟨d, t1⟩] } d
              = some ⟨d, t1⟩ := by
          have hfil : ({ data with actual_times := data.actual_times ++ [⟨d, t1⟩] }
                : Data).actual_times.filter (fun e => e.date == d) = [⟨d, t1⟩] := by
            simp [List.filter_append, hnil]
          unfold get_today_actual_time
          rw [hfil]
        constructor
        · unfold set_actual_time
          have hr1 : all_roster_guessed
              { data with actual_times := data.actual_times ++ [⟨d, t1⟩] } d = true := hr
          simp [hr1, hget]
        · exact hget
  · simp [hr] at h

/-- Witness for claim C4: recording 09:05 for the tie-scenario date and
then attempting 10:00. -/
theorem claim_C4_witness :
    set_actual_time tie_scenario "2025-08-09" "10:00"
        = .error .DuplicateActualTimeError ∧
      get_today_actual_time tie_scenario "2025-08-09"
        = some ⟨"2025-08-09", "09:05"⟩ :=
  claim_C4_duplicate_actual_rejected awaiting_actual "2025-08-09" "09:05" "10:00"
    tie_scenario rfl

/-! Scoring-engine lemmas relating the source computation to the
specification reading. -/

theorem mem_guessedNames (data : Data) (d f : String) :
    f ∈ guessedNames data d ↔ ∃ g ∈ data.guesses, g.date = d ∧ g.name = f := by
  unfold guessedNames dateGuesses
  rw [List.mem_dedup]
  constructor
  · intro hf
    obtain ⟨g, hg, hname⟩ := List.mem_map.mp hf
    obtain ⟨hmem, hdate⟩ := List.mem_filter.mp hg
    exact ⟨g, hmem, by simpa using hdate, hname⟩
  · rintro ⟨g, hmem, hdate, hname⟩
    exact List.mem_map.mpr ⟨g, List.mem_filter.mpr ⟨hmem, by simp [hdate]⟩, hname⟩

theorem pair_filter_length_le_one (l : List Guess)
    (hw : (l.map fun g => (g.date, g.name)).Nodup) (d n : String) :
    (l.filter (fun g => g.date == d && g.name == n)).length ≤ 1 := by
  have hnd : ((l.filter (fun g => g.date == d && g.name == n)).map
      (fun g => (g.date, g.name))).Nodup :=
    List.Nodup.sublist (List.Sublist.map _ (List.filter_sublist l)) hw
  cases hl : l.filter (fun g => g.date == d && g.name == n) with
  | nil => simp
  | cons a t =>
    cases t with
    | nil => simp
    | cons b t2 =>
      exfalso
      have ha : a ∈ l.filter (fun g => g.date == d && g.name == n) := by
        rw [hl]; exact List.mem_cons_self _ _
      have hb : b ∈ l.filter (fun g => g.date == d && g.name == n) := by
        rw [hl]; exact List.mem_cons_of_mem _ (List.mem_cons_self _ _)
      have pa' : a.date = d ∧ a.name = n := by
        simpa using (List.mem_filter.mp ha).2
      have pb' : b.date = d ∧ b.name = n := by
        simpa using (List.mem_filter.mp hb).2
      rw [hl] at hnd
      simp [List.nodup_cons, pa'.1, pa'.2, pb'.1, pb'.2] at hnd

theorem diffVal_eq_spec_diff (data : Data)
    (wf1 : (data.guesses.map fun g => (g.date, g.name)).Nodup)
    (d : String) (hact : first_actual_entry data d ≠ none) (n : String) :
    diffVal data d n = spec_diff data d n := by
  obtain ⟨e, he⟩ : ∃ e, first_actual_entry data d = some e := by
    cases hfe : first_actual_entry data d
    · exact absurd hfe hact
    · exact ⟨_, rfl⟩
  have hfil : (dateGuesses data d).filter (fun g => g.name == n)
      = data.guesses.filter (fun g => g.date == d && g.name == n) := by
    unfold dateGuesses
    rw [List.filter_filter]
    apply List.filter_congr
    intro a _
    exact Bool.and_comm _ _
  have hlast : ((dateGuesses data d).filter (fun g => g.name == n)).getLast?
      = data.guesses.find? (fun g => g.date == d && g.name == n) := by
    rw [hfil, getLast?_eq_head?_of_short _ (pair_filter_length_le_one data.guesses wf1 d n),
      ← find?_eq_filter_head?]
  unfold diffVal spec_diff actual_minutes
  rw [hlast, he]
  cases data.guesses.find? (fun g => g.date == d && g.name == n) <;> rfl

theorem isCompleteDate_iff (data : Data)
    (wf3 : ∀ g ∈ data.guesses, g.name ∈ FRIENDS) (d : String) :
    isCompleteDate data d = true
      ↔ ∀ f ∈ FRIENDS, ∃ g ∈ data.guesses, g.date = d ∧ g.name = f := by
  unfold isCompleteDate
  rw [Bool.and_eq_true, List.all_eq_true]
  constructor
  · rintro ⟨-, hall⟩ f hf
    have hfmem : f ∈ guessedNames data d := by
      simpa using hall f hf
    exact (mem_guessedNames data d f).mp hfmem
  · intro hall
    refine ⟨?_, fun f hf => by simp [(mem_guessedNames data d f).mpr (hall f hf)]⟩
    have hsub1 : ∀ x ∈ guessedNames data d, x ∈ FRIENDS := by
      intro x hx
      obtain ⟨g, hg, _, hgn⟩ := (mem_guessedNames data d x).mp hx
      exact hgn ▸ wf3 g hg
    have hsub2 : ∀ x ∈ FRIENDS, x ∈ guessedNames data d := fun x hx =>
      (mem_guessedNames data d x).mpr (hall x hx)
    have hfin : (guessedNames data d).toFinset = FRIENDS.toFinset := by
      apply Finset.Subset.antisymm
      · intro x hx; exact List.mem_toFinset.mpr (hsub1 x (List.mem_toFinset.mp hx))
      · intro x hx; exact List.mem_toFinset.mpr (hsub2 x (List.mem_toFinset.mp hx))
    have hnd : (guessedNames data d).Nodup := List.nodup_dedup _
    have hlen : (guessedNames data d).length = FRIENDS.length := by
      rw [← List.toFinset_card_of_nodup hnd, ← List.toFinset_card_of_nodup (by decide),
        hfin]
    simp [hlen]

theorem mem_round_winners_iff (data : Data) (hwf : WellFormed data) (d : String)
    (hact : first_actual_entry data d ≠ none)
    (hc : isCompleteDate data d = true) (n : String) :
    n ∈ round_winners data d ↔ spec_winner data d n := by
  obtain ⟨wf1, _, wf3⟩ := hwf
  have hmemFr : ∀ f, f ∈ guessedNames data d ↔ f ∈ FRIENDS := by
    intro f
    constructor
    · intro hf
      obtain ⟨g, hg, _, hgn⟩ := (mem_guessedNames data d f).mp hf
      exact hgn ▸ wf3 g hg
    · intro hf
      exact (mem_guessedNames data d f).mpr
        (((isCompleteDate_iff data wf3 d).mp hc) f hf)
  have hdiff : ∀ f, diffVal data d f = spec_diff data d f :=
    diffVal_eq_spec_diff data wf1 d hact
  have hne : guessedNames data d ≠ [] := by
    intro hnil
    have : "Honor" ∈ guessedNames data d := (hmemFr "Honor").mpr (by decide)
    rw [hnil] at this
    exact absurd this (List.not_mem_nil _)
  unfold round_winners
  cases hmin : ((guessedNames data d).map (fun x => diffVal data d x)).min? with
  | none =>
    exfalso
    exact hne (List.map_eq_nil_iff.mp (List.min?_eq_none_iff.mp hmin))
  | some m =>
    obtain ⟨hmmem, hmle⟩ := List.min?_eq_some_iff'.mp hmin
    constructor
    · intro hn
      obtain ⟨hnames, hval⟩ := List.mem_filter.mp hn
      have hvm : diffVal data d n = m := by simpa using hval
      refine ⟨(hmemFr n).mp hnames, fun f hf => ?_⟩
      have : m ≤ diffVal data d f :=
        hmle _ (List.mem_map.mpr ⟨f, (hmemFr f).mpr hf, rfl⟩)
      rw [← hdiff n, ← hdiff f, hvm]
      exact this
    · rintro ⟨hnF, hle⟩
      have hnames : n ∈ guessedNames data d := (hmemFr n).mpr hnF
      obtain ⟨fm, hfm, hfmv⟩ := List.mem_map.mp hmmem
      have h1 : m ≤ diffVal data d n := hmle _ (List.mem_map.mpr ⟨n, hnames, rfl⟩)
      have h2 : diffVal data d n ≤ m := by
        rw [← hfmv, hdiff n, hdiff fm]
        exact hle fm ((hmemFr fm).mp hfm)
      exact List.mem_filter.mpr ⟨hnames, by simp [Nat.le_antisymm h2 h1]⟩

theorem dates_eq_spec (data : Data) (hwf : WellFormed data) :
    dates_with_complete_data data
      = ((data.actual_times.map ActualTime.date).dedup).filter
          (fun d => decide (round_complete_spec data d)) := by
  obtain ⟨_, wf2, wf3⟩ := hwf
  unfold dates_with_complete_data
  rw [List.dedup_eq_self.mpr (List.Nodup.filter _ wf2), List.dedup_eq_self.mpr wf2]
  apply List.filter_congr
  intro d hd
  have hex : ∃ e ∈ data.actual_times, e.date = d := by
    obtain ⟨e, he, hed⟩ := List.mem_map.mp hd
    exact ⟨e, he, hed⟩
  by_cases hsp : round_complete_spec data d
  · rw [decide_eq_true hsp]
    exact (isCompleteDate_iff data wf3 d).mpr hsp.1
  · rw [decide_eq_false hsp]
    cases hcd : isCompleteDate data d
    · rfl
    · exact absurd ⟨(isCompleteDate_iff data wf3 d).mp hcd, hex⟩ hsp

theorem leaderboard_fold_count (data : Data) :
    ∀ (ds : List String) (w : String → Nat) (n : String),
      (ds.foldl (fun w d => fun x => if x ∈ round_winners data d then w x + 1 else w x) w) n
        = w n + ds.countP (fun d => decide (n ∈ round_winners data d))
  | [], w, n => by simp
  | d :: ds, w, n => by
    rw [List.foldl_cons, leaderboard_fold_count data ds _ n, List.countP_cons]
    by_cases h : n ∈ round_winners data d
    · rw [if_pos h, decide_eq_true h, if_pos rfl]
      omega
    · rw [if_neg h, decide_eq_false h, if_neg Bool.false_ne_true]
      omega

theorem first_actual_ne_none_of_exists (data : Data) (d : String)
    (hex : ∃ e ∈ data.actual_times, e.date = d) :
    first_actual_entry data d ≠ none := by
  obtain ⟨e, he, hed⟩ := hex
  have : (data.actual_times.find? (fun x => x.date == d)).isSome = true :=
    List.find?_isSome.mpr ⟨e, he, by simp [hed]⟩
  unfold first_actual_entry
  intro hcon
  rw [hcon] at this
  simp at this

/-- Claim C2: for a well-formed store, the leaderboard is the baseline
score map with, for each round date where every roster participant has
a guess and an actual time exists, exactly the participants attaining
the minimum absolute difference incremented by 1; rounds missing a
roster guess or an actual time contribute nothing. -/
theorem claim_C2_leaderboard_characterization (data : Data) (hwf : WellFormed data)
    (n : String) :
    calculate_leaderboard data n = data.initial_scores n + spec_win_count data n := by
  unfold calculate_leaderboard
  rw [leaderboard_fold_count]
  congr 1
  unfold spec_win_count
  rw [dates_eq_spec data hwf]
  apply List.countP_congr
  intro d hd
  obtain ⟨hdd, hds⟩ := List.mem_filter.mp hd
  have hsp : round_complete_spec data d := by simpa using hds
  have hact : first_actual_entry data d ≠ none :=
    first_actual_ne_none_of_exists data d hsp.2
  have hc : isCompleteDate data d = true :=
    (isCompleteDate_iff data hwf.2.2 d).mpr hsp.1
  simp only [decide_eq_true_eq]
  exact mem_round_winners_iff data hwf d hact hc n

/-- Witness for claim C2 on the seeded store. -/
theorem claim_C2_witness :
    calculate_leaderboard default_data "Honor"
      = default_data.initial_scores "Honor" + spec_win_count default_data "Honor" :=
  claim_C2_leaderboard_characterization default_data (by decide) "Honor"

/-- Claim C3: on every complete round of a well-formed store, the
winner set is exactly the set of participants attaining the minimum
difference; in the tie scenario with guesses 09:00, 09:10 and 08:50
against actual time 09:05, the winners are exactly the first two
guessers, each credited one win, and the third gets none. -/
theorem claim_C3_tie_winners :
    (∀ (data : Data) (d n : String), WellFormed data →
        d ∈ dates_with_complete_data data →
        (n ∈ round_winners data d ↔ spec_winner data d n)) ∧
      round_winners tie_scenario "2025-08-09" = ["Honor", "Dawn"] ∧
      calculate_leaderboard tie_scenario "Honor" = 1 ∧
      calculate_leaderboard tie_scenario "Dawn" = 1 ∧
      calculate_leaderboard tie_scenario "Pilgrim" = 0 := by
  refine ⟨?_, by decide, by decide, by decide, by decide⟩
  intro data d n hwf hd
  unfold dates_with_complete_data at hd
  rw [List.mem_dedup] at hd
  obtain ⟨hdd, hdc⟩ := List.mem_filter.mp hd
  have hact : first_actual_entry data d ≠ none := by
    apply first_actual_ne_none_of_exists
    obtain ⟨e, he, hed⟩ := List.mem_map.mp hdd
    exact ⟨e, he, hed⟩
  exact mem_round_winners_iff data hwf d hact hdc n

/-- Witness for claim C3, applying the general tie characterization to
the tie scenario. -/
theorem claim_C3_witness :
    "Honor" ∈ round_winners tie_scenario "2025-08-09"
      ↔ spec_winner tie_scenario "2025-08-09" "Honor" :=
  claim_C3_tie_winners.1 tie_scenario "2025-08-09" "Honor" (by decide) (by decide)

/-- Claim C10: aggregation only increments: every participant's
leaderboard tally is at least the baseline score. -/
theorem claim_C10_leaderboard_ge_baseline (data : Data) (n : String) :
    data.initial_scores n ≤ calculate_leaderboard data n := by
  unfold calculate_leaderboard
  rw [leaderboard_fold_count]
  omega

end TimeGuess
